import Mathlib

/-!
Verification of the TimelineTransaction component (src/transaction.ts) of the
multi-timeline chess engine.  The transaction captures pre-mutation state of
timelines and can roll the registry back if a multi-step operation fails.

Shallow embedding conventions:
  * TypeScript exceptions become `Except String`.
  * The mutable registry `Record<number, TimelineData>` becomes an association
    list `Registry` threaded functionally through `rollback`.
  * The optional deletion callback is modelled by an event trace: `rollback`
    returns the ordered list of `RbEvent`s it emits (`deleted id` exactly when
    the source would invoke `onDeleteTimeline(id)` and delete the entry,
    `restored id` exactly when it restores a captured timeline in place).
  * The external chess.js instance is reduced to its positional (FEN) string.
    `load` is parametrised by a validity predicate `valid : String → Bool`:
    loading a valid string replaces the state and reports success, loading an
    invalid one leaves the instance unchanged and reports failure, matching
    the boolean result the source inspects at transaction.ts line 166.
-/

set_option autoImplicit false

/-- A chess piece as stored on a board: `{ type, color }` (transaction.ts
line 243 clones exactly these two fields). -/
structure Piece where
  type : String
  color : String
deriving DecidableEq, Repr

/-- A board is a grid of optional pieces; the source accesses it with
`board[r]?.[c]`, so rows may in principle be missing or short. -/
abbrev Board := List (List (Option Piece))

/-- Snapshot in either representation: legacy bare board array, or the
current `{ fen, board }` object (transaction.ts lines 224-235). -/
inductive AnySnapshot where
  | legacyBoard (board : Board)
  | withFen (fen : String) (board : Board)
deriving DecidableEq, Repr

/-- A recorded move; transaction.ts lines 208-218 clone exactly these
fields.  `from` is a Lean keyword, hence `from'`. -/
structure Move where
  from' : String
  to' : String
  piece : String
  captured : Option String
  san : String
  isWhite : Bool
  promotion : Option String
deriving DecidableEq, Repr

/-- Modelled from the spec: the external chess-rule-engine instance
(`ChessInstance` from ./types, backed by chess.js; not part of src/).  Per
spec section 3 (GameState) it serialises to a compact positional string and
deserialises with validation; only that positional string matters to the
transaction layer. -/
structure ChessInstance where
  fen : String
deriving DecidableEq, Repr

/-- Modelled from the spec: `chess.load(fen)` returns the updated instance
and the success flag the source checks; which strings load accepts is kept
abstract as the parameter `valid`.  A failed load leaves the instance
unchanged. -/
def ChessInstance.load (c : ChessInstance) (valid : String → Bool) (s : String) :
    ChessInstance × Bool :=
  if valid s then ({ fen := s }, true) else (c, false)

/-- The per-timeline data the transaction reads and writes: positional state
(via the chess instance), move history and snapshot list. -/
structure TimelineData where
  id : Int
  chess : ChessInstance
  moveHistory : List Move
  snapshots : List AnySnapshot
deriving DecidableEq, Repr

/-- Captured state of a timeline for rollback (transaction.ts lines 32-38). -/
structure TimelineState where
  id : Int
  fen : String
  moveHistory : List Move
  snapshots : List AnySnapshot
  label : String
deriving DecidableEq, Repr

/-- The timelines registry `Record<number, TimelineData>` as an association
list from timeline id to timeline data (keys unique in any real registry). -/
abbrev Registry := List (Int × TimelineData)

/-- Registry lookup, `timelines[id]`. -/
def Registry.lookup (reg : Registry) (id : Int) : Option TimelineData :=
  match reg with
  | [] => none
  | (k, v) :: rest => if k = id then some v else Registry.lookup rest id

/-- Registry deletion, `delete timelines[id]`. -/
def Registry.erase (reg : Registry) (id : Int) : Registry :=
  match reg with
  | [] => []
  | (k, v) :: rest =>
    if k = id then Registry.erase rest id else (k, v) :: Registry.erase rest id

/-- In-place update of the entry for `id` (the source mutates the found
timeline object's fields); entries with other keys are untouched. -/
def Registry.set (reg : Registry) (id : Int) (v : TimelineData) : Registry :=
  match reg with
  | [] => []
  | (k, w) :: rest =>
    if k = id then (k, v) :: Registry.set rest id v
    else (k, w) :: Registry.set rest id v

/-- Clone of a single piece, `{ type: p.type, color: p.color }`. -/
def clonePiece (p : Piece) : Piece :=
  { type := p.type, color := p.color }

/-- One cell of a cloned row: `p ? { type, color } : null` for
`p = row[c]`. -/
def rowCell (row : List (Option Piece)) (c : Nat) : Option Piece :=
  match row.get? c with
  | some (some p) => some (clonePiece p)
  | _ => none

/-- One cell of a cloned board: `p ? { type, color } : null` for
`p = board[r]?.[c]`. -/
def boardCell (board : Board) (r c : Nat) : Option Piece :=
  match board.get? r with
  | some row => rowCell row c
  | none => none

/-- Deep clone of a board (transaction.ts lines 237-247): builds a fresh
8x8 grid cell by cell. -/
def deepCloneBoard (board : Board) : Board :=
  (List.range 8).map (fun r => (List.range 8).map (fun c => boardCell board r c))

/-- Deep clone of one snapshot, dispatching on its runtime shape
(transaction.ts lines 224-235). -/
def deepCloneSnapshot (snapshot : AnySnapshot) : AnySnapshot :=
  match snapshot with
  | .legacyBoard board => .legacyBoard (deepCloneBoard board)
  | .withFen fen board => .withFen fen (deepCloneBoard board)

/-- Deep clone of a snapshot list (transaction.ts lines 220-222). -/
def deepCloneSnapshots (snapshots : List AnySnapshot) : List AnySnapshot :=
  snapshots.map deepCloneSnapshot

/-- Deep clone of a move history (transaction.ts lines 208-218): rebuilds
each move field by field. -/
def deepCloneMoveHistory (moves : List Move) : List Move :=
  moves.map (fun m =>
    { from' := m.from'
      to' := m.to'
      piece := m.piece
      captured := m.captured
      san := m.san
      isWhite := m.isWhite
      promotion := m.promotion })

/-- The transaction object (transaction.ts lines 45-49).  `capturedStates`
is the insertion-ordered Map from timeline id to captured state. -/
structure TimelineTransaction where
  capturedStates : List (Int × TimelineState)
  newTimelineIds : List Int
  committed : Bool
  rolledBack : Bool
deriving DecidableEq, Repr

/-- A fresh transaction, `new TimelineTransaction()`. -/
def TimelineTransaction.new : TimelineTransaction :=
  { capturedStates := [], newTimelineIds := [], committed := false, rolledBack := false }

/-- Whether the captured-states map already holds an entry for `id`. -/
def capturedHas (m : List (Int × TimelineState)) (id : Int) : Bool :=
  m.any (fun p => p.1 == id)

/-- The captured state built by captureTimeline (transaction.ts lines
69-75): the timeline's current FEN and deep copies of its move history and
snapshot list. -/
def captureState (timeline : TimelineData) (label : String) : TimelineState :=
  { id := timeline.id
    fen := timeline.chess.fen
    moveHistory := deepCloneMoveHistory timeline.moveHistory
    snapshots := deepCloneSnapshots timeline.snapshots
    label := label }

/-- captureTimeline (transaction.ts lines 58-83): throws once finalized,
skips an id already captured, otherwise stores a deep copy of the
timeline's FEN, move history and snapshots. -/
def TimelineTransaction.captureTimeline (tx : TimelineTransaction)
    (timeline : TimelineData) (label : String) :
    Except String TimelineTransaction :=
  if tx.committed || tx.rolledBack then
    .error "Transaction already finalized"
  else if capturedHas tx.capturedStates timeline.id then
    .ok tx
  else
    .ok { tx with
      capturedStates := tx.capturedStates ++ [(timeline.id, captureState timeline label)] }

/-- captureNewTimeline (transaction.ts lines 91-98): throws once finalized,
otherwise records the id for deletion on rollback. -/
def TimelineTransaction.captureNewTimeline (tx : TimelineTransaction) (id : Int) :
    Except String TimelineTransaction :=
  if tx.committed || tx.rolledBack then
    .error "Transaction already finalized"
  else
    .ok { tx with newTimelineIds := tx.newTimelineIds ++ [id] }

/-- commit (transaction.ts lines 104-114): throws once finalized, otherwise
only sets the committed flag. -/
def TimelineTransaction.commit (tx : TimelineTransaction) :
    Except String TimelineTransaction :=
  if tx.committed || tx.rolledBack then
    .error "Transaction already finalized"
  else
    .ok { tx with committed := true }

/-- isFinalized (transaction.ts lines 186-188). -/
def TimelineTransaction.isFinalized (tx : TimelineTransaction) : Bool :=
  tx.committed || tx.rolledBack

/-- Event emitted during rollback: a deletion-callback invocation followed
by registry removal, or an in-place restore of a captured timeline. -/
inductive RbEvent where
  | deleted (id : Int)
  | restored (id : Int)
deriving DecidableEq, Repr

/-- Rollback step 1 (transaction.ts lines 141-149): for each recorded new
timeline id, if present, invoke the callback and delete it. -/
def deletePhase (ids : List Int) (reg : Registry) : Registry × List RbEvent :=
  match ids with
  | [] => (reg, [])
  | id :: rest =>
    match Registry.lookup reg id with
    | none => deletePhase rest reg
    | some _ =>
      let r := deletePhase rest (Registry.erase reg id)
      (r.1, .deleted id :: r.2)

/-- The in-place restore of one captured timeline (transaction.ts lines
166-176): load the captured FEN into the chess instance (failure is only
logged), then overwrite move history and snapshots with fresh clones of the
captured copies. -/
def restoreTimeline (valid : String → Bool) (st : TimelineState) (tl : TimelineData) :
    TimelineData :=
  { tl with
    chess := (tl.chess.load valid st.fen).1
    moveHistory := deepCloneMoveHistory st.moveHistory
    snapshots := deepCloneSnapshots st.snapshots }

/-- Rollback step 2 (transaction.ts lines 152-177): restore each captured
timeline still present in the registry; skip missing ones. -/
def restorePhase (valid : String → Bool) (states : List (Int × TimelineState))
    (reg : Registry) : Registry × List RbEvent :=
  match states with
  | [] => (reg, [])
  | (id, st) :: rest =>
    match Registry.lookup reg id with
    | none => restorePhase valid rest reg
    | some tl =>
      let r := restorePhase valid rest (Registry.set reg id (restoreTimeline valid st tl))
      (r.1, .restored id :: r.2)

/-- rollback (transaction.ts lines 123-181): throws if committed, is a
logged no-op if already rolled back, otherwise deletes recorded new
timelines then restores captured ones, and marks the transaction rolled
back. -/
def TimelineTransaction.rollback (tx : TimelineTransaction) (valid : String → Bool)
    (reg : Registry) :
    Except String (TimelineTransaction × Registry × List RbEvent) :=
  if tx.committed then
    .error "Cannot rollback a committed transaction"
  else if tx.rolledBack then
    .ok (tx, reg, [])
  else
    let d := deletePhase tx.newTimelineIds reg
    let r := restorePhase valid tx.capturedStates d.1
    .ok ({ tx with rolledBack := true }, r.1, d.2 ++ r.2)

/-! ### Concrete sample data, used by the witness theorems -/

/-- A sample piece. -/
def exPieceKing : Piece := { type := "king", color := "white" }

/-- A sample full board row. -/
def exRow0 : List (Option Piece) := some exPieceKing :: List.replicate 7 none

/-- A sample full 8x8 board with one piece. -/
def exBoard : Board := exRow0 :: List.replicate 7 (List.replicate 8 none)

/-- A sample current-format snapshot. -/
def exSnap : AnySnapshot := .withFen "fen0" exBoard

/-- A sample legacy-format snapshot. -/
def exSnapLegacy : AnySnapshot := .legacyBoard exBoard

/-- A sample move. -/
def exMove : Move :=
  { from' := "e2", to' := "e4", piece := "p", captured := none, san := "e4",
    isWhite := true, promotion := none }

/-- A sample label. -/
def exLabel : String := "source"

/-- A sample timeline with id 1, in a state that differs from the captured
state below. -/
def exTimeline1 : TimelineData :=
  { id := 1, chess := { fen := "fen-live-1" }, moveHistory := [exMove, exMove],
    snapshots := [exSnap, exSnap] }

/-- A sample timeline with id 5. -/
def exTimeline5 : TimelineData :=
  { id := 5, chess := { fen := "fen-live-5" }, moveHistory := [], snapshots := [] }

/-- A sample captured state for timeline 1. -/
def exState1 : TimelineState :=
  { id := 1, fen := "fen-captured-1", moveHistory := [exMove], snapshots := [exSnap],
    label := "source" }

/-- A sample registry holding timelines 1 and 5. -/
def exReg : Registry := [(1, exTimeline1), (5, exTimeline5)]

/-- A sample registry holding only timeline 1. -/
def exRegSingle : Registry := [(1, exTimeline1)]

/-- A load-validity predicate accepting every positional string. -/
def exValidTrue : String → Bool := fun _ => true

/-- A load-validity predicate rejecting every positional string. -/
def exValidFalse : String → Bool := fun _ => false

/-- An open transaction that captured timeline 1 and recorded new timeline 5. -/
def exTxOpen : TimelineTransaction :=
  { capturedStates := [(1, exState1)], newTimelineIds := [5],
    committed := false, rolledBack := false }

/-- An open transaction whose captured timeline 1 is also recorded as a new
timeline. -/
def exTxCapturedNew : TimelineTransaction :=
  { capturedStates := [(1, exState1)], newTimelineIds := [1],
    committed := false, rolledBack := false }

/-- An open transaction that recorded new timeline 5 twice. -/
def exTxDupNew : TimelineTransaction :=
  { capturedStates := [], newTimelineIds := [5, 5],
    committed := false, rolledBack := false }

/-- A transaction that has already been committed. -/
def exTxCommitted : TimelineTransaction :=
  { capturedStates := [], newTimelineIds := [],
    committed := true, rolledBack := false }

/-- Timeline 1 again, with different live data (for the idempotent-capture
witness). -/
def exTimeline1Changed : TimelineData :=
  { id := 1, chess := { fen := "changed" }, moveHistory := [], snapshots := [] }

/-- A transaction that has already been rolled back. -/
def exTxRolledBack : TimelineTransaction :=
  { capturedStates := [], newTimelineIds := [],
    committed := false, rolledBack := true }

/-- Well-formedness of a board: exactly 8 rows of exactly 8 cells, as the
data model (spec section 3) prescribes. -/
def BoardWF (b : Board) : Prop :=
  b.length = 8 ∧ ∀ row ∈ b, row.length = 8

instance (b : Board) : Decidable (BoardWF b) := by
  unfold BoardWF
  infer_instance

/-- Well-formedness of a snapshot: its board (in either representation) is a
full 8x8 grid. -/
def SnapshotWF : AnySnapshot → Prop
  | .legacyBoard b => BoardWF b
  | .withFen _ b => BoardWF b

instance (s : AnySnapshot) : Decidable (SnapshotWF s) := by
  cases s <;> (unfold SnapshotWF; infer_instance)

/-! ### Basic lemmas about the deep-clone helpers -/

/-- Cloning a piece rebuilds it with the same field values. -/
theorem clonePiece_eq (p : Piece) : clonePiece p = p := by
  cases p
  rfl

/-- Cloning a move history is the structural identity: every field of every
move is copied verbatim. -/
theorem deepCloneMoveHistory_eq (moves : List Move) :
    deepCloneMoveHistory moves = moves := by
  induction moves with
  | nil => rfl
  | cons m rest ih =>
    cases m
    simp [deepCloneMoveHistory] at ih ⊢

/-- Reading past the clone of one row: cell `c+1` of `q :: rest` is cell `c`
of `rest`. -/
theorem rowCell_cons_succ (q : Option Piece) (rest : List (Option Piece)) (c : Nat) :
    rowCell (q :: rest) (c + 1) = rowCell rest c := rfl

/-- Cloning a full-length row reproduces it exactly. -/
theorem cloneRow_eq (n : Nat) :
    ∀ row : List (Option Piece), row.length = n →
      (List.range n).map (rowCell row) = row := by
  induction n with
  | zero =>
    intro row h
    simp [List.length_eq_zero.mp h]
  | succ n ih =>
    intro row h
    cases row with
    | nil => simp at h
    | cons q rest =>
      have hr : rest.length = n := by
        simpa using h
      have h0 : rowCell (q :: rest) 0 = q := by
        cases q with
        | none => rfl
        | some p => exact congrArg some (clonePiece_eq p)
      have hsucc : (rowCell (q :: rest)) ∘ Nat.succ = rowCell rest :=
        funext fun c => rfl
      rw [List.range_succ_eq_map n, List.map_cons, List.map_map, hsucc, ih rest hr, h0]

/-- Cell access one row down. -/
theorem boardCell_cons_succ (row : List (Option Piece)) (rest : Board) (r c : Nat) :
    boardCell (row :: rest) (r + 1) c = boardCell rest r c := rfl

/-- Cloning a board of `n` full rows reproduces it exactly. -/
theorem cloneBoard_aux (n : Nat) :
    ∀ b : Board, b.length = n → (∀ row ∈ b, row.length = 8) →
      (List.range n).map (fun r => (List.range 8).map (fun c => boardCell b r c)) = b := by
  induction n with
  | zero =>
    intro b h _
    simp [List.length_eq_zero.mp h]
  | succ n ih =>
    intro b h hrows
    cases b with
    | nil => simp at h
    | cons row rest =>
      have hr : rest.length = n := by simpa using h
      have hrow : row.length = 8 := hrows row (List.mem_cons_self row rest)
      have hrest : ∀ q ∈ rest, q.length = 8 := fun q hq =>
        hrows q (List.mem_cons_of_mem row hq)
      have head : (List.range 8).map (fun c => boardCell (row :: rest) 0 c) = row := by
        have hfun : (fun c => boardCell (row :: rest) 0 c) = rowCell row :=
          funext fun c => rfl
        rw [hfun]
        exact cloneRow_eq 8 row hrow
      have hsucc :
          ((fun r => (List.range 8).map (fun c => boardCell (row :: rest) r c)) ∘ Nat.succ)
            = fun r => (List.range 8).map (fun c => boardCell rest r c) :=
        funext fun r => rfl
      rw [List.range_succ_eq_map n, List.map_cons, List.map_map, hsucc, ih rest hr hrest]
      exact congrArg (· :: rest) head

/-- Cloning a well-formed board is the structural identity. -/
theorem deepCloneBoard_eq (b : Board) (h : BoardWF b) : deepCloneBoard b = b :=
  cloneBoard_aux 8 b h.1 h.2

/-- A cloned board is always a full 8x8 grid. -/
theorem deepCloneBoard_wf (b : Board) : BoardWF (deepCloneBoard b) := by
  constructor
  · simp [deepCloneBoard]
  · intro row hrow
    simp only [deepCloneBoard, List.mem_map] at hrow
    obtain ⟨r, _, hr⟩ := hrow
    simp [← hr]

/-- Cloning a well-formed snapshot is the structural identity, in both
representations. -/
theorem deepCloneSnapshot_eq (s : AnySnapshot) (h : SnapshotWF s) :
    deepCloneSnapshot s = s := by
  cases s with
  | legacyBoard b => simp [deepCloneSnapshot, deepCloneBoard_eq b h]
  | withFen fen b => simp [deepCloneSnapshot, deepCloneBoard_eq b h]

/-- Every snapshot produced by the clone helpers is well-formed. -/
theorem deepCloneSnapshot_wf (s : AnySnapshot) : SnapshotWF (deepCloneSnapshot s) := by
  cases s with
  | legacyBoard b => exact deepCloneBoard_wf b
  | withFen fen b => exact deepCloneBoard_wf b

/-- Cloning a list of well-formed snapshots is the structural identity. -/
theorem deepCloneSnapshots_eq (l : List AnySnapshot) (h : ∀ s ∈ l, SnapshotWF s) :
    deepCloneSnapshots l = l := by
  induction l with
  | nil => rfl
  | cons s rest ih =>
    simp only [deepCloneSnapshots, List.map_cons] at ih ⊢
    rw [deepCloneSnapshot_eq s (h s (List.mem_cons_self s rest)),
      ih (fun q hq => h q (List.mem_cons_of_mem s hq))]

/-! ### Registry lemmas -/

/-- Erasing a key makes it absent. -/
theorem Registry.lookup_erase_self (reg : Registry) (id : Int) :
    Registry.lookup (Registry.erase reg id) id = none := by
  induction reg with
  | nil => rfl
  | cons p rest ih =>
    obtain ⟨k, v⟩ := p
    by_cases hk : k = id
    · simp [Registry.erase, hk, ih]
    · simp [Registry.erase, Registry.lookup, hk, ih]

/-- Erasing one key leaves lookups of other keys unchanged. -/
theorem Registry.lookup_erase_ne (reg : Registry) (j id : Int) (h : j ≠ id) :
    Registry.lookup (Registry.erase reg j) id = Registry.lookup reg id := by
  induction reg with
  | nil => rfl
  | cons p rest ih =>
    obtain ⟨k, v⟩ := p
    by_cases hk : k = j
    · subst hk
      simp [Registry.erase, Registry.lookup, h, ih]
    · simp [Registry.erase, Registry.lookup, hk, ih]

/-- Setting a present key makes lookup return the new value. -/
theorem Registry.lookup_set_self (reg : Registry) (id : Int) (v tl : TimelineData)
    (h : Registry.lookup reg id = some tl) :
    Registry.lookup (Registry.set reg id v) id = some v := by
  induction reg with
  | nil => simp [Registry.lookup] at h
  | cons p rest ih =>
    obtain ⟨k, w⟩ := p
    by_cases hk : k = id
    · subst hk
      simp [Registry.set, Registry.lookup]
    · simp only [Registry.lookup, if_neg hk] at h
      simp [Registry.set, Registry.lookup, hk, ih h]

/-- Setting one key leaves lookups of other keys unchanged. -/
theorem Registry.lookup_set_ne (reg : Registry) (j id : Int) (v : TimelineData)
    (h : j ≠ id) :
    Registry.lookup (Registry.set reg j v) id = Registry.lookup reg id := by
  induction reg with
  | nil => rfl
  | cons p rest ih =>
    obtain ⟨k, w⟩ := p
    by_cases hk : k = j
    · subst hk
      simp [Registry.set, Registry.lookup, h, ih]
    · simp [Registry.set, Registry.lookup, hk, ih]

/-- Setting never adds entries: an absent key stays absent. -/
theorem Registry.lookup_set_none (reg : Registry) (j id : Int) (v : TimelineData)
    (h : Registry.lookup reg id = none) :
    Registry.lookup (Registry.set reg j v) id = none := by
  induction reg with
  | nil => rfl
  | cons p rest ih =>
    obtain ⟨k, w⟩ := p
    simp only [Registry.lookup] at h
    by_cases hid : k = id
    · simp [hid] at h
    · simp only [if_neg hid] at h
      by_cases hk : k = j
      · subst hk
        simp [Registry.set, Registry.lookup, hid, ih h]
      · simp [Registry.set, Registry.lookup, hk, hid, ih h]

/-! ### Deletion-phase lemmas (rollback step 1) -/

/-- The deletion phase never touches ids that were not recorded. -/
theorem deletePhase_lookup_not_mem (ids : List Int) (reg : Registry) (id : Int)
    (h : id ∉ ids) :
    Registry.lookup (deletePhase ids reg).1 id = Registry.lookup reg id := by
  induction ids generalizing reg with
  | nil => rfl
  | cons j rest ih =>
    have hj : j ≠ id := fun he => h (he ▸ List.mem_cons_self j rest)
    have hrest : id ∉ rest := fun hm => h (List.mem_cons_of_mem j hm)
    cases hjl : Registry.lookup reg j with
    | none => simp [deletePhase, hjl, ih _ hrest]
    | some tl =>
      simp only [deletePhase, hjl]
      rw [ih _ hrest, Registry.lookup_erase_ne reg j id hj]

/-- The deletion phase never adds entries: an absent key stays absent. -/
theorem deletePhase_lookup_absent (ids : List Int) (reg : Registry) (id : Int)
    (h : Registry.lookup reg id = none) :
    Registry.lookup (deletePhase ids reg).1 id = none := by
  induction ids generalizing reg with
  | nil => exact h
  | cons j rest ih =>
    cases hjl : Registry.lookup reg j with
    | none => simp [deletePhase, hjl, ih _ h]
    | some tl =>
      simp only [deletePhase, hjl]
      by_cases hk : j = id
      · subst hk
        exact ih _ (Registry.lookup_erase_self reg j)
      · exact ih _ (by rw [Registry.lookup_erase_ne reg j id hk]; exact h)

/-- After the deletion phase, every recorded id is absent from the registry. -/
theorem deletePhase_lookup_mem (ids : List Int) (reg : Registry) (id : Int)
    (h : id ∈ ids) :
    Registry.lookup (deletePhase ids reg).1 id = none := by
  induction ids generalizing reg with
  | nil => simp at h
  | cons j rest ih =>
    by_cases hk : j = id
    · subst hk
      cases hjl : Registry.lookup reg j with
      | none =>
        simp only [deletePhase, hjl]
        exact deletePhase_lookup_absent rest reg j hjl
      | some tl =>
        simp only [deletePhase, hjl]
        exact deletePhase_lookup_absent rest _ j (Registry.lookup_erase_self reg j)
    · have hrest : id ∈ rest := by
        cases List.mem_cons.mp h with
        | inl he => exact absurd he.symm hk
        | inr hm => exact hm
      cases hjl : Registry.lookup reg j with
      | none => simp [deletePhase, hjl, ih _ hrest]
      | some tl => simp [deletePhase, hjl, ih _ hrest]

/-- The deletion phase emits no event for an id that is absent from the
registry. -/
theorem deletePhase_trace_absent (ids : List Int) (reg : Registry) (id : Int)
    (h : Registry.lookup reg id = none) :
    RbEvent.deleted id ∉ (deletePhase ids reg).2 := by
  induction ids generalizing reg with
  | nil => simp [deletePhase]
  | cons j rest ih =>
    cases hjl : Registry.lookup reg j with
    | none => simp [deletePhase, hjl, ih _ h]
    | some tl =>
      have hk : j ≠ id := by
        intro he
        rw [he, h] at hjl
        exact Option.noConfusion hjl
      simp only [deletePhase, hjl, List.mem_cons, not_or]
      constructor
      · intro he
        injection he with h2
        exact hk h2.symm
      · exact ih _ (by rw [Registry.lookup_erase_ne reg j id hk]; exact h)

/-- The deletion phase invokes the callback exactly once for a recorded id
that is present in the registry, even when the id was recorded several
times. -/
theorem deletePhase_trace_count (ids : List Int) (reg : Registry) (id : Int)
    (tl : TimelineData) (hmem : id ∈ ids) (h : Registry.lookup reg id = some tl) :
    ((deletePhase ids reg).2.count (RbEvent.deleted id)) = 1 := by
  induction ids generalizing reg with
  | nil => simp at hmem
  | cons j rest ih =>
    by_cases hk : j = id
    · subst hk
      simp only [deletePhase, h]
      have habs : RbEvent.deleted j ∉ (deletePhase rest (Registry.erase reg j)).2 :=
        deletePhase_trace_absent rest _ j (Registry.lookup_erase_self reg j)
      simp [List.count_cons, List.count_eq_zero.mpr habs]
    · have hrest : id ∈ rest := by
        cases List.mem_cons.mp hmem with
        | inl he => exact absurd he.symm hk
        | inr hm => exact hm
      cases hjl : Registry.lookup reg j with
      | none => simp [deletePhase, hjl, ih _ hrest h]
      | some tlj =>
        simp only [deletePhase, hjl]
        have hcount := ih _ hrest (by rw [Registry.lookup_erase_ne reg j id hk]; exact h)
        simp [List.count_cons, Ne.symm hk, hcount]

/-- Every event of the deletion phase is a deletion. -/
theorem deletePhase_trace_shape (ids : List Int) (reg : Registry) :
    ∀ e ∈ (deletePhase ids reg).2, ∃ i, e = RbEvent.deleted i := by
  induction ids generalizing reg with
  | nil => simp [deletePhase]
  | cons j rest ih =>
    cases hjl : Registry.lookup reg j with
    | none => simpa [deletePhase, hjl] using ih reg
    | some tl =>
      intro e he
      simp only [deletePhase, hjl, List.mem_cons] at he
      cases he with
      | inl h2 => exact ⟨j, h2⟩
      | inr h2 => exact ih _ e h2

/-! ### Restore-phase lemmas (rollback step 2) -/

/-- The restore phase never adds entries: an absent key stays absent. -/
theorem restorePhase_lookup_absent (valid : String → Bool)
    (states : List (Int × TimelineState)) (reg : Registry) (id : Int)
    (h : Registry.lookup reg id = none) :
    Registry.lookup (restorePhase valid states reg).1 id = none := by
  induction states generalizing reg with
  | nil => exact h
  | cons p rest ih =>
    obtain ⟨j, st⟩ := p
    cases hjl : Registry.lookup reg j with
    | none => simp [restorePhase, hjl, ih _ h]
    | some tl =>
      simp only [restorePhase, hjl]
      exact ih _ (Registry.lookup_set_none reg j id _ h)

/-- The restore phase leaves uncaptured ids unchanged. -/
theorem restorePhase_lookup_not_mem (valid : String → Bool)
    (states : List (Int × TimelineState)) (reg : Registry) (id : Int)
    (h : id ∉ states.map Prod.fst) :
    Registry.lookup (restorePhase valid states reg).1 id = Registry.lookup reg id := by
  induction states generalizing reg with
  | nil => rfl
  | cons p rest ih =>
    obtain ⟨j, st⟩ := p
    simp only [List.map_cons, List.mem_cons, not_or] at h
    have hj : j ≠ id := fun he => h.1 he.symm
    cases hjl : Registry.lookup reg j with
    | none => simp [restorePhase, hjl, ih _ h.2]
    | some tl =>
      simp only [restorePhase, hjl]
      rw [ih _ h.2, Registry.lookup_set_ne reg j id _ hj]

/-- A captured timeline that is present when the restore phase runs ends up
restored from its captured state. -/
theorem restorePhase_lookup_mem (valid : String → Bool)
    (states : List (Int × TimelineState)) (reg : Registry) (id : Int)
    (st : TimelineState) (tl : TimelineData)
    (hmem : (id, st) ∈ states) (hnd : (states.map Prod.fst).Nodup)
    (h : Registry.lookup reg id = some tl) :
    Registry.lookup (restorePhase valid states reg).1 id =
      some (restoreTimeline valid st tl) := by
  induction states generalizing reg with
  | nil => simp at hmem
  | cons p rest ih =>
    obtain ⟨j, st'⟩ := p
    simp only [List.map_cons, List.nodup_cons] at hnd
    cases List.mem_cons.mp hmem with
    | inl he =>
      obtain ⟨he1, he2⟩ := Prod.mk.injEq .. ▸ he
      subst he1
      subst he2
      simp only [restorePhase, h]
      rw [restorePhase_lookup_not_mem valid rest _ id hnd.1]
      exact Registry.lookup_set_self reg id _ tl h
    | inr hm =>
      have hid : id ∈ rest.map Prod.fst :=
        List.mem_map_of_mem Prod.fst hm
      have hj : j ≠ id := fun he => hnd.1 (he ▸ hid)
      cases hjl : Registry.lookup reg j with
      | none => simp [restorePhase, hjl, ih reg hm hnd.2 h]
      | some tlj =>
        simp only [restorePhase, hjl]
        exact ih (Registry.set reg j (restoreTimeline valid st' tlj)) hm hnd.2
          (by rw [Registry.lookup_set_ne reg j id _ hj]; exact h)

/-- Every event of the restore phase is a restore. -/
theorem restorePhase_trace_shape (valid : String → Bool)
    (states : List (Int × TimelineState)) (reg : Registry) :
    ∀ e ∈ (restorePhase valid states reg).2, ∃ i, e = RbEvent.restored i := by
  induction states generalizing reg with
  | nil => simp [restorePhase]
  | cons p rest ih =>
    obtain ⟨j, st⟩ := p
    cases hjl : Registry.lookup reg j with
    | none => simpa [restorePhase, hjl] using ih reg
    | some tl =>
      intro e he
      simp only [restorePhase, hjl, List.mem_cons] at he
      cases he with
      | inl h2 => exact ⟨j, h2⟩
      | inr h2 => exact ih _ e h2

/-! ### Shape of a successful rollback -/

/-- An open transaction's rollback always succeeds and consists of the
deletion phase followed by the restore phase. -/
theorem TimelineTransaction.rollback_open_eq
    (tx : TimelineTransaction) (valid : String → Bool) (reg : Registry)
    (hc : tx.committed = false) (hr : tx.rolledBack = false) :
    tx.rollback valid reg =
      Except.ok ({ tx with rolledBack := true },
        (restorePhase valid tx.capturedStates (deletePhase tx.newTimelineIds reg).1).1,
        (deletePhase tx.newTimelineIds reg).2 ++
          (restorePhase valid tx.capturedStates (deletePhase tx.newTimelineIds reg).1).2) := by
  simp [TimelineTransaction.rollback, hc, hr]

/-! ### Claim theorems -/

/-- Claim C3: on an open transaction, commit followed by rollback fails on
the rollback, and rollback followed by commit fails on the commit — the
second finalization always raises. -/
theorem TimelineTransaction.finalization_exclusive
    (tx : TimelineTransaction) (valid : String → Bool) (reg : Registry)
    (hc : tx.committed = false) (hr : tx.rolledBack = false) :
    (∃ tx1, tx.commit = Except.ok tx1 ∧ ∃ e, tx1.rollback valid reg = Except.error e) ∧
    (∃ tx2 reg' tr, tx.rollback valid reg = Except.ok (tx2, reg', tr) ∧
      ∃ e, tx2.commit = Except.error e) := by
  constructor
  · refine ⟨{ tx with committed := true }, ?_, "Cannot rollback a committed transaction", ?_⟩
    · simp [TimelineTransaction.commit, hc, hr]
    · simp [TimelineTransaction.rollback]
  · refine ⟨{ tx with rolledBack := true }, _, _,
      TimelineTransaction.rollback_open_eq tx valid reg hc hr,
      "Transaction already finalized", ?_⟩
    simp [TimelineTransaction.commit]

/-- Claim C3 witness: instantiation on a fresh transaction. -/
theorem TimelineTransaction.finalization_exclusive_witness :
    (∃ tx1, TimelineTransaction.new.commit = Except.ok tx1 ∧
      ∃ e, tx1.rollback exValidTrue exReg = Except.error e) ∧
    (∃ tx2 reg' tr, TimelineTransaction.new.rollback exValidTrue exReg =
        Except.ok (tx2, reg', tr) ∧
      ∃ e, tx2.commit = Except.error e) :=
  TimelineTransaction.finalization_exclusive TimelineTransaction.new exValidTrue exReg rfl rfl

/-- Claim C4 counterexample: a transaction that has been rolled back is
finalized, yet calling rollback on it again does not fail — it returns
successfully as a no-op.  So not every post-finalization use fails with an
invalid-state error. -/
theorem TimelineTransaction.finalized_use_counterexample :
    exTxRolledBack.isFinalized = true ∧
    exTxRolledBack.rollback exValidTrue exReg = Except.ok (exTxRolledBack, exReg, []) := by
  constructor
  · rfl
  · rfl

/-- Claim C4 (amended): on a finalized transaction, captureTimeline,
captureNewTimeline and commit always fail with the invalid-state error;
rollback fails when the transaction was committed, and is an error-free
no-op when it was only rolled back. -/
theorem TimelineTransaction.finalized_use_fails
    (tx : TimelineTransaction) (valid : String → Bool) (reg : Registry)
    (tl : TimelineData) (label : String) (nid : Int)
    (h : tx.committed = true ∨ tx.rolledBack = true) :
    (∃ e, tx.captureTimeline tl label = Except.error e) ∧
    (∃ e, tx.captureNewTimeline nid = Except.error e) ∧
    (∃ e, tx.commit = Except.error e) ∧
    (tx.committed = true → ∃ e, tx.rollback valid reg = Except.error e) ∧
    (tx.committed = false → tx.rollback valid reg = Except.ok (tx, reg, [])) := by
  have hfin : (tx.committed || tx.rolledBack) = true := by
    cases h with
    | inl h1 => simp [h1]
    | inr h1 => simp [h1]
  refine ⟨⟨"Transaction already finalized", ?_⟩,
    ⟨"Transaction already finalized", ?_⟩,
    ⟨"Transaction already finalized", ?_⟩, ?_, ?_⟩
  · simp [TimelineTransaction.captureTimeline, hfin]
  · simp [TimelineTransaction.captureNewTimeline, hfin]
  · simp [TimelineTransaction.commit, hfin]
  · intro h1
    exact ⟨"Cannot rollback a committed transaction",
      by simp [TimelineTransaction.rollback, h1]⟩
  · intro h1
    have h2 : tx.rolledBack = true := by
      cases h with
      | inl hx => rw [h1] at hx; exact Bool.noConfusion hx
      | inr hx => exact hx
    simp [TimelineTransaction.rollback, h1, h2]

/-- Claim C4 witness: instantiation on a committed transaction. -/
theorem TimelineTransaction.finalized_use_fails_witness :
    (∃ e, exTxCommitted.captureTimeline exTimeline1 exLabel = Except.error e) ∧
    (∃ e, exTxCommitted.captureNewTimeline 7 = Except.error e) ∧
    (∃ e, exTxCommitted.commit = Except.error e) ∧
    (exTxCommitted.committed = true →
      ∃ e, exTxCommitted.rollback exValidTrue exReg = Except.error e) ∧
    (exTxCommitted.committed = false →
      exTxCommitted.rollback exValidTrue exReg = Except.ok (exTxCommitted, exReg, [])) :=
  TimelineTransaction.finalized_use_fails exTxCommitted exValidTrue exReg
    exTimeline1 exLabel 7 (Or.inl rfl)

/-- Claim C5: within one open transaction, capturing the same timeline id
twice has the same effect as capturing it once — the second call returns
the transaction unchanged, even if the timeline data differs. -/
theorem TimelineTransaction.captureTimeline_idempotent
    (tx : TimelineTransaction) (tl1 tl2 : TimelineData) (l1 l2 : String)
    (hc : tx.committed = false) (hr : tx.rolledBack = false)
    (hid : tl2.id = tl1.id) :
    ∃ tx', tx.captureTimeline tl1 l1 = Except.ok tx' ∧
      tx'.captureTimeline tl2 l2 = Except.ok tx' := by
  by_cases hcap : capturedHas tx.capturedStates tl1.id
  · refine ⟨tx, ?_, ?_⟩
    · simp [TimelineTransaction.captureTimeline, hc, hr, hcap]
    · simp [TimelineTransaction.captureTimeline, hc, hr, hid, hcap]
  · refine ⟨{ tx with
      capturedStates := tx.capturedStates ++ [(tl1.id, captureState tl1 l1)] }, ?_, ?_⟩
    · simp [TimelineTransaction.captureTimeline, hc, hr, hcap]
    · simp [TimelineTransaction.captureTimeline, capturedHas, hc, hr, hid]

/-- Claim C5 witness: capture timeline 1 twice, with different live data on
the second call. -/
theorem TimelineTransaction.captureTimeline_idempotent_witness :
    ∃ tx', TimelineTransaction.new.captureTimeline exTimeline1 exLabel = Except.ok tx' ∧
      tx'.captureTimeline exTimeline1Changed exLabel = Except.ok tx' :=
  TimelineTransaction.captureTimeline_idempotent TimelineTransaction.new exTimeline1
    exTimeline1Changed exLabel exLabel rfl rfl rfl

/-- Claim C6: rollback on an already-rolled-back transaction is a safe
no-op — no error, no registry change, no callback invocation, transaction
unchanged. -/
theorem TimelineTransaction.rollback_idempotent
    (tx : TimelineTransaction) (valid : String → Bool) (reg : Registry)
    (hr : tx.rolledBack = true) (hc : tx.committed = false) :
    tx.rollback valid reg = Except.ok (tx, reg, []) := by
  simp [TimelineTransaction.rollback, hc, hr]

/-- Claim C6 witness: instantiation on a rolled-back transaction. -/
theorem TimelineTransaction.rollback_idempotent_witness :
    exTxRolledBack.rollback exValidTrue exReg = Except.ok (exTxRolledBack, exReg, []) :=
  TimelineTransaction.rollback_idempotent exTxRolledBack exValidTrue exReg rfl rfl

/-- Claim C8: commit on an open transaction changes no data — the captured
states, recorded new-timeline ids and rolled-back flag are unchanged; its
only effect is setting the committed flag (it does not even receive the
registry, so no timeline can be touched). -/
theorem TimelineTransaction.commit_pure_marker
    (tx : TimelineTransaction)
    (hc : tx.committed = false) (hr : tx.rolledBack = false) :
    ∃ tx', tx.commit = Except.ok tx' ∧
      tx'.capturedStates = tx.capturedStates ∧
      tx'.newTimelineIds = tx.newTimelineIds ∧
      tx'.committed = true ∧ tx'.rolledBack = false := by
  refine ⟨{ tx with committed := true }, ?_, rfl, rfl, rfl, hr⟩
  simp [TimelineTransaction.commit, hc, hr]

/-- Claim C8 witness: instantiation on an open transaction with captured
state and a recorded new timeline. -/
theorem TimelineTransaction.commit_pure_marker_witness :
    ∃ tx', exTxOpen.commit = Except.ok tx' ∧
      tx'.capturedStates = exTxOpen.capturedStates ∧
      tx'.newTimelineIds = exTxOpen.newTimelineIds ∧
      tx'.committed = true ∧ tx'.rolledBack = false :=
  TimelineTransaction.commit_pure_marker exTxOpen rfl rfl

/-- Claim C9: cloning a snapshot of either representation of the 8x8 data
model reproduces it exactly — same representation, structurally equal; the
clone is rebuilt cell by cell, so in the source it shares no mutable board
structure with the input. -/
theorem deepCloneSnapshot_roundtrip (s : AnySnapshot) (h : SnapshotWF s) :
    deepCloneSnapshot s = s :=
  deepCloneSnapshot_eq s h

/-- Claim C9 witness: instantiation on a concrete snapshot in each
representation. -/
theorem deepCloneSnapshot_roundtrip_witness :
    SnapshotWF exSnapLegacy ∧ deepCloneSnapshot exSnapLegacy = exSnapLegacy ∧
    SnapshotWF exSnap ∧ deepCloneSnapshot exSnap = exSnap :=
  ⟨by decide, deepCloneSnapshot_roundtrip exSnapLegacy (by decide),
   by decide, deepCloneSnapshot_roundtrip exSnap (by decide)⟩

/-- Claim C1 counterexample: a captured timeline id that is present in the
registry passed to rollback but is also recorded as a new timeline id is
deleted by rollback step 1 and never restored — after rollback the registry
is empty, so the timeline's state was not restored to the captured copy. -/
theorem TimelineTransaction.rollback_captured_present_counterexample :
    exTxCapturedNew.committed = false ∧
    exTxCapturedNew.rolledBack = false ∧
    (1, exState1) ∈ exTxCapturedNew.capturedStates ∧
    Registry.lookup exRegSingle 1 = some exTimeline1 ∧
    exTxCapturedNew.rollback exValidTrue exRegSingle =
      Except.ok ({ exTxCapturedNew with rolledBack := true }, [], [RbEvent.deleted 1]) ∧
    Registry.lookup [] 1 = none := by
  refine ⟨rfl, rfl, ?_, ?_, ?_, rfl⟩
  · decide
  · decide
  · rfl

/-- Claim C1 (amended): when an open transaction is rolled back, every
captured timeline id that is present in the registry passed to rollback and
is not also recorded as a new timeline id ends up with move history and
snapshot list structurally equal to the captured copies, and with its
positional state the result of loading the captured positional string into
its chess instance. -/
theorem TimelineTransaction.rollback_restores_captured
    (tx : TimelineTransaction) (valid : String → Bool) (reg : Registry)
    (id : Int) (st : TimelineState) (tl : TimelineData)
    (hc : tx.committed = false) (hr : tx.rolledBack = false)
    (hnd : (tx.capturedStates.map Prod.fst).Nodup)
    (hmem : (id, st) ∈ tx.capturedStates)
    (hnew : id ∉ tx.newTimelineIds)
    (hfind : Registry.lookup reg id = some tl)
    (hwf : ∀ s ∈ st.snapshots, SnapshotWF s) :
    ∃ tx' reg' tr, tx.rollback valid reg = Except.ok (tx', reg', tr) ∧
      ∃ tl', Registry.lookup reg' id = some tl' ∧
        tl'.moveHistory = st.moveHistory ∧
        tl'.snapshots = st.snapshots ∧
        tl'.chess = (tl.chess.load valid st.fen).1 := by
  refine ⟨_, _, _, TimelineTransaction.rollback_open_eq tx valid reg hc hr, ?_⟩
  have hdel : Registry.lookup (deletePhase tx.newTimelineIds reg).1 id = some tl := by
    rw [deletePhase_lookup_not_mem _ _ _ hnew]
    exact hfind
  refine ⟨restoreTimeline valid st tl,
    restorePhase_lookup_mem valid tx.capturedStates _ id st tl hmem hnd hdel, ?_, ?_, rfl⟩
  · simp [restoreTimeline, deepCloneMoveHistory_eq]
  · simp [restoreTimeline, deepCloneSnapshots_eq st.snapshots hwf]

/-- Claim C1 witness: rollback of a transaction that captured timeline 1
and created timeline 5, over a registry holding both. -/
theorem TimelineTransaction.rollback_restores_captured_witness :
    ∃ tx' reg' tr, exTxOpen.rollback exValidTrue exReg = Except.ok (tx', reg', tr) ∧
      ∃ tl', Registry.lookup reg' 1 = some tl' ∧
        tl'.moveHistory = exState1.moveHistory ∧
        tl'.snapshots = exState1.snapshots ∧
        tl'.chess = (exTimeline1.chess.load exValidTrue exState1.fen).1 :=
  TimelineTransaction.rollback_restores_captured exTxOpen exValidTrue exReg
    1 exState1 exTimeline1 rfl rfl (by decide) (by decide) (by decide) (by decide)
    (by decide)

/-- Claim C2: rolling back an open transaction deletes every recorded
new-timeline id that is present in the registry — the deletion callback is
invoked exactly once per such id, all deletion events precede all restore
events, the id is gone afterwards, and no recorded new-timeline id remains
in the registry. -/
theorem TimelineTransaction.rollback_new_timeline_deletion
    (tx : TimelineTransaction) (valid : String → Bool) (reg : Registry)
    (id : Int) (tl : TimelineData)
    (hc : tx.committed = false) (hr : tx.rolledBack = false)
    (hmem : id ∈ tx.newTimelineIds)
    (hfind : Registry.lookup reg id = some tl) :
    ∃ tx' reg' t1 t2,
      tx.rollback valid reg = Except.ok (tx', reg', t1 ++ t2) ∧
      (∀ e ∈ t1, ∃ i, e = RbEvent.deleted i) ∧
      (∀ e ∈ t2, ∃ i, e = RbEvent.restored i) ∧
      (t1 ++ t2).count (RbEvent.deleted id) = 1 ∧
      Registry.lookup reg' id = none ∧
      ∀ i ∈ tx.newTimelineIds, Registry.lookup reg' i = none := by
  refine ⟨_, _, _, _, TimelineTransaction.rollback_open_eq tx valid reg hc hr,
    deletePhase_trace_shape tx.newTimelineIds reg,
    restorePhase_trace_shape valid tx.capturedStates _, ?_, ?_, ?_⟩
  · rw [List.count_append]
    have h1 := deletePhase_trace_count tx.newTimelineIds reg id tl hmem hfind
    have h2 : ((restorePhase valid tx.capturedStates
        (deletePhase tx.newTimelineIds reg).1).2.count (RbEvent.deleted id)) = 0 := by
      rw [List.count_eq_zero]
      intro hmem2
      obtain ⟨i, he⟩ := restorePhase_trace_shape valid tx.capturedStates _ _ hmem2
      exact RbEvent.noConfusion he
    rw [h1, h2]
  · exact restorePhase_lookup_absent valid tx.capturedStates _ id
      (deletePhase_lookup_mem tx.newTimelineIds reg id hmem)
  · intro i hi
    exact restorePhase_lookup_absent valid tx.capturedStates _ i
      (deletePhase_lookup_mem tx.newTimelineIds reg i hi)

/-- Claim C2 witness: rollback of a transaction that recorded new timeline
5, over a registry holding timelines 1 and 5. -/
theorem TimelineTransaction.rollback_new_timeline_deletion_witness :
    ∃ tx' reg' t1 t2,
      exTxOpen.rollback exValidTrue exReg = Except.ok (tx', reg', t1 ++ t2) ∧
      (∀ e ∈ t1, ∃ i, e = RbEvent.deleted i) ∧
      (∀ e ∈ t2, ∃ i, e = RbEvent.restored i) ∧
      (t1 ++ t2).count (RbEvent.deleted 5) = 1 ∧
      Registry.lookup reg' 5 = none ∧
      ∀ i ∈ exTxOpen.newTimelineIds, Registry.lookup reg' i = none :=
  TimelineTransaction.rollback_new_timeline_deletion exTxOpen exValidTrue exReg
    5 exTimeline5 rfl rfl (by decide) (by decide)

/-- Claim C7: if loading the captured positional string fails during
rollback of an open transaction, rollback raises no error, still restores
that timeline's move history and snapshot list from the captured copies
(leaving its chess state untouched), and keeps restoring every other
captured timeline. -/
theorem TimelineTransaction.rollback_best_effort_on_load_failure
    (tx : TimelineTransaction) (valid : String → Bool) (reg : Registry)
    (id : Int) (st : TimelineState) (tl : TimelineData)
    (hc : tx.committed = false) (hr : tx.rolledBack = false)
    (hnd : (tx.capturedStates.map Prod.fst).Nodup)
    (hmem : (id, st) ∈ tx.capturedStates)
    (hnew : id ∉ tx.newTimelineIds)
    (hfind : Registry.lookup reg id = some tl)
    (hfail : valid st.fen = false)
    (hwf : ∀ s ∈ st.snapshots, SnapshotWF s) :
    ∃ tx' reg' tr, tx.rollback valid reg = Except.ok (tx', reg', tr) ∧
      (∃ tl', Registry.lookup reg' id = some tl' ∧
        tl'.chess = tl.chess ∧
        tl'.moveHistory = st.moveHistory ∧
        tl'.snapshots = st.snapshots) ∧
      ∀ id2 st2 tl2, (id2, st2) ∈ tx.capturedStates → id2 ∉ tx.newTimelineIds →
        Registry.lookup reg id2 = some tl2 →
        ∃ tl2', Registry.lookup reg' id2 = some tl2' ∧
          tl2'.moveHistory = deepCloneMoveHistory st2.moveHistory ∧
          tl2'.snapshots = deepCloneSnapshots st2.snapshots := by
  refine ⟨_, _, _, TimelineTransaction.rollback_open_eq tx valid reg hc hr, ?_, ?_⟩
  · have hdel : Registry.lookup (deletePhase tx.newTimelineIds reg).1 id = some tl := by
      rw [deletePhase_lookup_not_mem _ _ _ hnew]
      exact hfind
    refine ⟨restoreTimeline valid st tl,
      restorePhase_lookup_mem valid tx.capturedStates _ id st tl hmem hnd hdel, ?_, ?_, ?_⟩
    · simp [restoreTimeline, ChessInstance.load, hfail]
    · simp [restoreTimeline, deepCloneMoveHistory_eq]
    · simp [restoreTimeline, deepCloneSnapshots_eq st.snapshots hwf]
  · intro id2 st2 tl2 hmem2 hnew2 hfind2
    have hdel2 : Registry.lookup (deletePhase tx.newTimelineIds reg).1 id2 = some tl2 := by
      rw [deletePhase_lookup_not_mem _ _ _ hnew2]
      exact hfind2
    exact ⟨restoreTimeline valid st2 tl2,
      restorePhase_lookup_mem valid tx.capturedStates _ id2 st2 tl2 hmem2 hnd hdel2,
      rfl, rfl⟩

/-- Claim C7 witness: rollback with a validity predicate that rejects every
positional string, so the FEN restore of timeline 1 fails. -/
theorem TimelineTransaction.rollback_best_effort_on_load_failure_witness :
    ∃ tx' reg' tr, exTxOpen.rollback exValidFalse exReg = Except.ok (tx', reg', tr) ∧
      (∃ tl', Registry.lookup reg' 1 = some tl' ∧
        tl'.chess = exTimeline1.chess ∧
        tl'.moveHistory = exState1.moveHistory ∧
        tl'.snapshots = exState1.snapshots) ∧
      ∀ id2 st2 tl2, (id2, st2) ∈ exTxOpen.capturedStates → id2 ∉ exTxOpen.newTimelineIds →
        Registry.lookup exReg id2 = some tl2 →
        ∃ tl2', Registry.lookup reg' id2 = some tl2' ∧
          tl2'.moveHistory = deepCloneMoveHistory st2.moveHistory ∧
          tl2'.snapshots = deepCloneSnapshots st2.snapshots :=
  TimelineTransaction.rollback_best_effort_on_load_failure exTxOpen exValidFalse exReg
    1 exState1 exTimeline1 rfl rfl (by decide) (by decide) (by decide) (by decide)
    rfl (by decide)

/-- Claim C10: even when the same new-timeline id was recorded more than
once, rollback of an open transaction invokes the deletion callback for it
exactly once and leaves it absent from the registry, because the second
pass finds the id already gone. -/
theorem TimelineTransaction.rollback_duplicate_new_id_once
    (tx : TimelineTransaction) (valid : String → Bool) (reg : Registry)
    (id : Int) (tl : TimelineData)
    (hc : tx.committed = false) (hr : tx.rolledBack = false)
    (hdup : 2 ≤ tx.newTimelineIds.count id)
    (hfind : Registry.lookup reg id = some tl) :
    ∃ tx' reg' tr, tx.rollback valid reg = Except.ok (tx', reg', tr) ∧
      tr.count (RbEvent.deleted id) = 1 ∧
      Registry.lookup reg' id = none := by
  have hmem : id ∈ tx.newTimelineIds := by
    by_contra hno
    rw [List.count_eq_zero.mpr hno] at hdup
    omega
  refine ⟨_, _, _, TimelineTransaction.rollback_open_eq tx valid reg hc hr, ?_, ?_⟩
  · rw [List.count_append]
    have h1 := deletePhase_trace_count tx.newTimelineIds reg id tl hmem hfind
    have h2 : ((restorePhase valid tx.capturedStates
        (deletePhase tx.newTimelineIds reg).1).2.count (RbEvent.deleted id)) = 0 := by
      rw [List.count_eq_zero]
      intro hmem2
      obtain ⟨i, he⟩ := restorePhase_trace_shape valid tx.capturedStates _ _ hmem2
      exact RbEvent.noConfusion he
    rw [h1, h2]
  · exact restorePhase_lookup_absent valid tx.capturedStates _ id
      (deletePhase_lookup_mem tx.newTimelineIds reg id hmem)

/-- Claim C10 witness: new timeline 5 recorded twice; its deletion event
occurs once and it is absent afterwards. -/
theorem TimelineTransaction.rollback_duplicate_new_id_once_witness :
    ∃ tx' reg' tr, exTxDupNew.rollback exValidTrue exReg = Except.ok (tx', reg', tr) ∧
      tr.count (RbEvent.deleted 5) = 1 ∧
      Registry.lookup reg' 5 = none :=
  TimelineTransaction.rollback_duplicate_new_id_once exTxDupNew exValidTrue exReg
    5 exTimeline5 rfl rfl (by decide) (by decide)
